import Mathlib

/-!
Shallow embedding of the IHC nuclei-counting workstation
(`src/services/geminiService.ts`, `src/App.tsx`, `src/unnamed/part_000`):
the two-pass analysis aggregation protocol, the response validation, the
polygon-selection state machine, and the session persistence handlers,
together with proofs settling the specification claims about them.

JavaScript numbers are modelled as rationals (`ℚ`); the counting claims
only concern integer values, for which `ℚ` arithmetic is exact.  Remote
model calls are modelled by an explicit outcome datum per call, and the
sequencing of `analyzeIHCImage` is captured by an event trace.
-/

namespace IHC

/-! ### Data model (`src/unnamed/part_000`, the types module) -/

/-- Analysis Result returned by the counting capability: the three JS
`number` fields of `interface AnalysisResult`. -/
structure AnalysisResult where
  positive_nuclei_count : ℚ
  negative_nuclei_count : ℚ
  total_nuclei_count : ℚ
  deriving DecidableEq, Repr

/-- Quality Check Result: `interface QualityCheckResult`. -/
structure QualityCheckResult where
  is_suitable : Bool
  feedback : String
  issues : List String
  deriving DecidableEq, Repr

/-! ### JSON field values and response validation
(`src/services/geminiService.ts`, `runSingleAnalysis`, lines 176-187) -/

/-- A parsed JSON field value as seen by the `typeof` checks: a field can
be a number, a string, a boolean, `null`, or absent from the object. -/
inductive JsonVal where
  | num (q : ℚ)
  | str (s : String)
  | boolean (b : Bool)
  | null
  | missing
  deriving DecidableEq, Repr

/-- The numeric payload of a field, when `typeof field === "number"`. -/
def JsonVal.asNumber : JsonVal → Option ℚ
  | .num q => some q
  | _ => none

/-- The raw JSON object `JSON.parse(response.text)` of one analysis pass,
before the `typeof` validation. -/
structure RawAnalysisResponse where
  positive_nuclei_count : JsonVal
  negative_nuclei_count : JsonVal
  total_nuclei_count : JsonVal
  deriving DecidableEq, Repr

/-- Error kinds a pass can raise: a rejected model call (transport or
provider failure), or the thrown
`Error("Invalid data format received from API.")`. -/
inductive AnalysisError where
  | modelCallFailed
  | invalidDataFormat
  deriving DecidableEq, Repr

/-- Outcome of one `ai.models.generateContent` call: the promise either
rejects, or resolves with a raw JSON response (possibly malformed). -/
inductive CallOutcome where
  | failure
  | response (raw : RawAnalysisResponse)
  deriving DecidableEq, Repr

/-- The `typeof x !== 'number'` validation of `runSingleAnalysis`: each of
the three count fields must be a JSON number, otherwise the pass throws
`Invalid data format received from API.` -/
def validateAnalysisResponse (raw : RawAnalysisResponse) :
    Except AnalysisError AnalysisResult :=
  match raw.positive_nuclei_count.asNumber, raw.negative_nuclei_count.asNumber,
      raw.total_nuclei_count.asNumber with
  | some p, some n, some t => .ok ⟨p, n, t⟩
  | _, _, _ => .error .invalidDataFormat

deriving instance DecidableEq for Except

/-- One analysis pass (`runSingleAnalysis`): await the model call, then
validate the parsed response. -/
def runSingleAnalysis (outcome : CallOutcome) :
    Except AnalysisError AnalysisResult :=
  match outcome with
  | .failure => .error .modelCallFailed
  | .response raw => validateAnalysisResponse raw

/-! ### Two-pass aggregation (`analyzeIHCImage`, lines 189-202) -/

/-- JavaScript `Math.round`: round to the nearest integer, with halves
rounded toward positive infinity, i.e. `⌊x + 1/2⌋` (stated with the
executable `Rat.floor`). -/
def jsRound (q : ℚ) : ℤ := (q + 1 / 2).floor

/-- The averaging step at the end of `analyzeIHCImage`:
`avgPositive = Math.round((r1.positive + r2.positive) / 2)`, likewise for
negative, and `total = avgPositive + avgNegative`. -/
def aggregateResults (result1 result2 : AnalysisResult) : AnalysisResult :=
  let avgPositive : ℤ :=
    jsRound ((result1.positive_nuclei_count + result2.positive_nuclei_count) / 2)
  let avgNegative : ℤ :=
    jsRound ((result1.negative_nuclei_count + result2.negative_nuclei_count) / 2)
  { positive_nuclei_count := (avgPositive : ℚ)
    negative_nuclei_count := (avgNegative : ℚ)
    total_nuclei_count := ((avgPositive + avgNegative : ℤ) : ℚ) }

/-- Observable events of one `analyzeIHCImage` execution: a progress
callback invocation `onProgress?.(n)`, and the issuing / settling of each
of the two model calls. -/
inductive Event where
  | progress (n : ℕ)
  | callIssued (i : ℕ)
  | callResolved (i : ℕ)
  | callFailed (i : ℕ)
  deriving DecidableEq, Repr

/-- Trace of the `i`-th model call: it is issued, then its promise either
resolves (also when the resolved JSON later fails validation) or
rejects. -/
def callEvents (i : ℕ) (outcome : CallOutcome) : List Event :=
  match outcome with
  | .failure => [.callIssued i, .callFailed i]
  | .response _ => [.callIssued i, .callResolved i]

/-- Model of `analyzeIHCImage(imageFile, onProgress)`, parameterised by the outcome
each of the two model calls would have.  Returns the event trace of the
execution together with its result: `onProgress?.(0)`, first pass,
`onProgress?.(50)`, second pass, `onProgress?.(100)`, then the averaged
aggregate.  A thrown error aborts the remaining steps. -/
def analyzeIHCImage (o1 o2 : CallOutcome) :
    List Event × Except AnalysisError AnalysisResult :=
  let t1 := Event.progress 0 :: callEvents 1 o1
  match runSingleAnalysis o1 with
  | .error e => (t1, .error e)
  | .ok result1 =>
    let t2 := t1 ++ Event.progress 50 :: callEvents 2 o2
    match runSingleAnalysis o2 with
    | .error e => (t2, .error e)
    | .ok result2 =>
      (t2 ++ [Event.progress 100], .ok (aggregateResults result1 result2))

/-- Modelled from the spec: the aggregation formula of section 4.3,
`round((a + b) / 2)` on non-negative integers with an exact `.5` midpoint
rounded half up, in closed form `(a + b + 1) / 2` over `ℕ`. -/
def specAvgHalfUp (a b : ℕ) : ℕ := (a + b + 1) / 2

/-! ### Selection geometry (`src/App.tsx`) -/

/-- A 2-D point in the normalized 0-100 coordinate space. -/
structure Point where
  x : ℚ
  y : ℚ
  deriving DecidableEq, Repr

/-- The data of a mouse event that `getPointFromEvent` reads: the client
coordinates of the pointer and the bounding rectangle of the drawing
surface. -/
structure MouseEvt where
  clientX : ℚ
  clientY : ℚ
  rectLeft : ℚ
  rectTop : ℚ
  rectWidth : ℚ
  rectHeight : ℚ
  deriving DecidableEq, Repr

/-- Model of `getPointFromEvent` (App.tsx lines 229-234): scale the pointer offset
into a 0-100 percentage of the rectangle, then clamp each coordinate with
`Math.max(0, Math.min(100, v))`. -/
def getPointFromEvent (e : MouseEvt) : Point :=
  let x := (e.clientX - e.rectLeft) / e.rectWidth * 100
  let y := (e.clientY - e.rectTop) / e.rectHeight * 100
  ⟨max 0 (min 100 x), max 0 (min 100 y)⟩

/-- Squared Euclidean distance between two points.  The source compares
`Math.sqrt(dx^2 + dy^2) < clickRadius`; since both sides are non-negative
this holds exactly when `dx^2 + dy^2 < clickRadius^2`, which is the form
used here to keep the model exact over `ℚ`. -/
def distSq (p q : Point) : ℚ := (p.x - q.x) ^ 2 + (p.y - q.y) ^ 2

/-- The fixed proximity radius for closing the polygon, in percentage of
width/height (`const clickRadius = 2`). -/
def clickRadius : ℚ := 2

/-! ### Workflow state (`src/App.tsx`, component state and localStorage) -/

/-- An uploaded or captured image file: its name, MIME type, and binary
content (carried as the base64 string `fileToBase64` would produce). -/
structure ImageFile where
  name : String
  mimeType : String
  base64 : String
  deriving DecidableEq, Repr

/-- The `image` state field `{ file: File; url: string }`: the file plus
the object URL displaying it. -/
structure ImageHandle where
  file : ImageFile
  url : String
  deriving DecidableEq, Repr

/-- The value stored under the `lastAnalysisImage` localStorage key:
`{ base64, name, type }` of the ORIGINAL image. -/
structure SavedImage where
  base64 : String
  name : String
  mimeType : String
  deriving DecidableEq, Repr

/-- The two localStorage keys the app uses, holding the persisted Session
Record; `none` models an absent key. -/
structure LocalStore where
  lastAnalysisResult : Option AnalysisResult
  lastAnalysisImage : Option SavedImage
  deriving DecidableEq, Repr

/-- The state of the `App` component relevant to the workflow, together
with the localStorage contents and a log of the object URLs released via
`URL.revokeObjectURL` (so that resource release is observable). -/
structure AppState where
  image : Option ImageHandle
  analysisResult : Option AnalysisResult
  isLoading : Bool
  error : Option String
  qualityCheckResult : Option QualityCheckResult
  isQualityChecking : Bool
  qualityCheckError : Option String
  analysisProgress : Option ℕ
  selectionPoints : List Point
  isDrawing : Bool
  previewPoint : Option Point
  store : LocalStore
  revokedUrls : List String
  deriving DecidableEq, Repr

/-- The initial component state at mount, over whatever localStorage
contents survive from an earlier browser session. -/
def initialState (store : LocalStore) : AppState :=
  { image := none
    analysisResult := none
    isLoading := false
    error := none
    qualityCheckResult := none
    isQualityChecking := false
    qualityCheckError := none
    analysisProgress := none
    selectionPoints := []
    isDrawing := true
    previewPoint := none
    store := store
    revokedUrls := [] }

/-- Model of `clearSelection`: empty the selection points, re-enable drawing, drop
the preview point. -/
def clearSelection (s : AppState) : AppState :=
  { s with selectionPoints := [], isDrawing := true, previewPoint := none }

/-- Model of `resetState(clearImage)` (App.tsx lines 84-99): when `clearImage` is
set and an image is present, revoke its object URL, drop the image and
remove the `lastAnalysisImage` key; then clear the analysis, error,
quality-check and progress state, clear the selection, and remove the
`lastAnalysisResult` key. -/
def resetState (clearImage : Bool) (s : AppState) : AppState :=
  let s1 :=
    if clearImage then
      match s.image with
      | some img =>
        { s with
            revokedUrls := s.revokedUrls ++ [img.url]
            image := none
            store := { s.store with lastAnalysisImage := none } }
      | none => s
    else s
  let s2 := clearSelection
    { s1 with
        analysisResult := none
        error := none
        isLoading := false
        qualityCheckResult := none
        isQualityChecking := false
        qualityCheckError := none
        analysisProgress := none }
  { s2 with store := { s2.store with lastAnalysisResult := none } }

/-- Model of `handleImageUpload(file)`: full reset, then install the new image with
a fresh object URL (the URL `URL.createObjectURL(file)` returns is passed
in as `url`). -/
def handleImageUpload (file : ImageFile) (url : String) (s : AppState) :
    AppState :=
  let s1 := resetState true s
  { s1 with image := some ⟨file, url⟩ }

/-- Model of `handleImageClick` (App.tsx lines 236-254): ignore clicks unless
drawing; compute the clamped point; if at least one point exists and the
click is within `clickRadius` of the first point, close the polygon
(stop drawing, drop the preview) WITHOUT appending; otherwise append the
point. -/
def handleImageClick (e : MouseEvt) (s : AppState) : AppState :=
  if s.isDrawing = false then s
  else
    let point := getPointFromEvent e
    match s.selectionPoints with
    | firstPoint :: _ =>
      if distSq point firstPoint < clickRadius ^ 2 then
        { s with isDrawing := false, previewPoint := none }
      else
        { s with selectionPoints := s.selectionPoints ++ [point] }
    | [] =>
      { s with selectionPoints := s.selectionPoints ++ [point] }

/-- Model of `handleMouseMove`: while drawing with at least one point, track the
pointer as the preview point. -/
def handleMouseMove (e : MouseEvt) (s : AppState) : AppState :=
  if s.isDrawing ∧ s.selectionPoints ≠ [] then
    { s with previewPoint := some (getPointFromEvent e) }
  else s

/-! ### Effective input (`getFileToProcess`, App.tsx lines 153-164) -/

/-- The file actually handed to a model call: either the original image
file unchanged, or the derivative produced by `getMaskedFile` from the
source file and the polygon points scaled from percentages into the unit
square (`p.x / 100`, `p.y / 100`). -/
inductive ProcessFile where
  | original (file : ImageFile)
  | masked (sourceFile : ImageFile) (points : List Point)
  deriving DecidableEq, Repr

/-- Model of `getFileToProcess`: `null` without an image; the masked file when the
selection has more than 2 points and drawing is finished; otherwise the
original image file. -/
def getFileToProcess (s : AppState) : Option ProcessFile :=
  match s.image with
  | none => none
  | some image =>
    if s.selectionPoints.length > 2 ∧ s.isDrawing = false then
      some (.masked image.file
        (s.selectionPoints.map fun p => ⟨p.x / 100, p.y / 100⟩))
    else
      some (.original image.file)

/-! ### Async handlers (`App.tsx`) -/

/-- Model of `fileToBase64`: the base64 payload of a file (carried directly on the
model's `ImageFile`). -/
def fileToBase64 (file : ImageFile) : String := file.base64

/-- The user-facing message set when a quality check fails. -/
def qualityCheckErrorMsg : String := "An error occurred during quality check."

/-- The user-facing message set when the two-pass analysis fails. -/
def analysisErrorMsg : String :=
  "An error occurred during analysis. Please try another image."

/-- The user-facing message set when an image edit fails. -/
def editErrorMsg : String := "An error occurred during image editing."

/-- Model of `handleQualityCheck` (App.tsx lines 167-183), parameterised by the
outcome `performQualityCheck(fileToProcess)` would have.  Bails out when
there is no file to process; otherwise clears the previous quality state,
then records the result or the error message, ending not-checking. -/
def handleQualityCheck (outcome : Except Unit QualityCheckResult)
    (s : AppState) : AppState :=
  match getFileToProcess s with
  | none => s
  | some _ =>
    let s1 := { s with
      isQualityChecking := true, qualityCheckError := none,
      qualityCheckResult := none }
    let s2 :=
      match outcome with
      | .ok result => { s1 with qualityCheckResult := some result }
      | .error _ =>
        { s1 with qualityCheckError := some qualityCheckErrorMsg }
    { s2 with isQualityChecking := false }

/-- Model of `handleAnalyzeClick` (App.tsx lines 185-209), parameterised by the
outcomes of the two model calls inside `analyzeIHCImage`.  Bails out
without a processable file or image; otherwise clears the error and the
current result, runs the two-pass analysis, and on success stores the
aggregate in the state and persists the Session Record (aggregate plus
the ORIGINAL image) under the two localStorage keys; on failure records
the error message.  The `finally` block ends loading and drops the
progress indicator. -/
def handleAnalyzeClick (o1 o2 : CallOutcome) (s : AppState) : AppState :=
  match getFileToProcess s, s.image with
  | some _, some image =>
    let s1 := { s with
      isLoading := true, error := none, analysisResult := none,
      analysisProgress := some 0 }
    let imageToSave : SavedImage :=
      ⟨fileToBase64 image.file, image.file.name, image.file.mimeType⟩
    let s2 :=
      match (analyzeIHCImage o1 o2).2 with
      | .ok result =>
        { s1 with
            analysisResult := some result
            store := { lastAnalysisResult := some result
                       lastAnalysisImage := some imageToSave } }
      | .error _ =>
        { s1 with error := some analysisErrorMsg }
    { s2 with isLoading := false, analysisProgress := none }
  | _, _ => s

/-- Model of `handleEditClick` (App.tsx lines 211-226), parameterised by the
outcome of `editImageWithText` (on success, the replacement handle built
by `base64ToFile`).  Bails out without a prompt or image; otherwise does
a reset that keeps the image, then on success revokes the old object URL
and installs the edited image, and on failure records the error
message. -/
def handleEditClick (prompt : String) (outcome : Except Unit ImageHandle)
    (s : AppState) : AppState :=
  if prompt = "" ∨ s.image = none then s
  else
    let s1 := { resetState false s with isLoading := true, error := none }
    let s2 :=
      match s1.image, outcome with
      | some img, .ok editedImage =>
        { s1 with
            revokedUrls := s1.revokedUrls ++ [img.url]
            image := some editedImage }
      | _, .error _ =>
        { s1 with error := some editErrorMsg }
      | none, .ok _ => s1
    { s2 with isLoading := false }

/-- The session-restore effect at mount (App.tsx lines 58-76): when both
localStorage keys are present, rebuild the image handle from the saved
payload (the fresh object URL `base64ToFile` creates is passed in as
`url`), restore the analysis result, and install the synthetic
`Restored from previous session.` quality result. -/
def restoreSession (url : String) (s : AppState) : AppState :=
  match s.store.lastAnalysisResult, s.store.lastAnalysisImage with
  | some savedResult, some saved =>
    { s with
        image := some ⟨⟨saved.name, saved.mimeType, saved.base64⟩, url⟩
        analysisResult := some savedResult
        qualityCheckResult :=
          some ⟨true, "Restored from previous session.", []⟩ }
  | _, _ => s

/-- The UI gate on analysis (App.tsx line 373): the Analyze button is
rendered only once a quality-check result is present. -/
def analyzeGateOpen (s : AppState) : Bool := s.qualityCheckResult.isSome

/-! ### Reachable workflow states -/

/-- The states the `App` component can reach: mount (with arbitrary
surviving localStorage) followed by the session-restore effect, then any
interleaving of the user-triggered handlers with any model-call
outcomes. -/
inductive Reachable : AppState → Prop where
  | mount (store : LocalStore) (url : String) :
      Reachable (restoreSession url (initialState store))
  | upload (s : AppState) (file : ImageFile) (url : String) :
      Reachable s → Reachable (handleImageUpload file url s)
  | click (s : AppState) (e : MouseEvt) :
      Reachable s → Reachable (handleImageClick e s)
  | move (s : AppState) (e : MouseEvt) :
      Reachable s → Reachable (handleMouseMove e s)
  | clear (s : AppState) :
      Reachable s → Reachable (clearSelection s)
  | reset (s : AppState) :
      Reachable s → Reachable (resetState true s)
  | quality (s : AppState) (outcome : Except Unit QualityCheckResult) :
      Reachable s → Reachable (handleQualityCheck outcome s)
  | analyze (s : AppState) (o1 o2 : CallOutcome) :
      Reachable s → Reachable (handleAnalyzeClick o1 o2 s)
  | edit (s : AppState) (prompt : String)
      (outcome : Except Unit ImageHandle) :
      Reachable s → Reachable (handleEditClick prompt outcome s)

/-- A fully populated workflow state: an image on display, a closed
triangular selection, a passed quality check, and a completed analysis
persisted as the Session Record. -/
def populatedState : AppState :=
  { image := some ⟨⟨"a.png", "image/png", "QUJD"⟩, "blob:a"⟩
    analysisResult := some ⟨10, 5, 15⟩
    isLoading := false
    error := none
    qualityCheckResult := some ⟨true, "Good quality.", []⟩
    isQualityChecking := false
    qualityCheckError := none
    analysisProgress := none
    selectionPoints := [⟨0, 0⟩, ⟨50, 0⟩, ⟨0, 50⟩]
    isDrawing := false
    previewPoint := none
    store := ⟨some ⟨10, 5, 15⟩, some ⟨"QUJD", "a.png", "image/png"⟩⟩
    revokedUrls := [] }

/-! ### Theorems -/

/-- The executable rounding agrees with the mathematical `⌊q + 1/2⌋`. -/
theorem jsRound_eq_floor (q : ℚ) : jsRound q = ⌊q + 1 / 2⌋ := by
  rw [jsRound, Rat.floor_def, Rat.floor_def']

/-- On the sum of two naturals, JavaScript `Math.round` of the half equals
the round-half-up average of the spec. -/
theorem jsRound_half_avg (a b : ℕ) :
    jsRound (((a : ℚ) + (b : ℚ)) / 2) = (specAvgHalfUp a b : ℤ) := by
  rw [jsRound_eq_floor]
  unfold specAvgHalfUp
  have h : ((a : ℚ) + (b : ℚ)) / 2 + 1 / 2 =
      ((a + b + 1 : ℕ) : ℚ) / ((2 : ℕ) : ℚ) := by
    push_cast
    ring
  rw [h, Rat.floor_natCast_div_natCast]
  omega

/-- Claim C1: for raw results with non-negative integer counts, the
aggregate produced by `analyzeIHCImage` has positive and negative counts
equal to the round-half-up average of the two passes (halves round up, so
positives 3 and 4 average to 4), and in particular passes
{positive 10, negative 5} and {positive 12, negative 7} aggregate to
{positive 11, negative 6, total 17}. -/
theorem two_pass_average_is_round_half_up (p1 n1 t1 p2 n2 t2 : ℕ) :
    (analyzeIHCImage (.response ⟨.num p1, .num n1, .num t1⟩)
        (.response ⟨.num p2, .num n2, .num t2⟩)).2 =
      .ok ⟨(specAvgHalfUp p1 p2 : ℚ), (specAvgHalfUp n1 n2 : ℚ),
        ((specAvgHalfUp p1 p2 + specAvgHalfUp n1 n2 : ℕ) : ℚ)⟩ ∧
    (analyzeIHCImage (.response ⟨.num 10, .num 5, .num 15⟩)
        (.response ⟨.num 12, .num 7, .num 19⟩)).2 = .ok ⟨11, 6, 17⟩ ∧
    jsRound (((3 : ℚ) + 4) / 2) = 4 := by
  have hgen : ∀ a1 b1 c1 a2 b2 c2 : ℕ,
      (analyzeIHCImage (.response ⟨.num a1, .num b1, .num c1⟩)
          (.response ⟨.num a2, .num b2, .num c2⟩)).2 =
        .ok ⟨(specAvgHalfUp a1 a2 : ℚ), (specAvgHalfUp b1 b2 : ℚ),
          ((specAvgHalfUp a1 a2 + specAvgHalfUp b1 b2 : ℕ) : ℚ)⟩ := by
    intro a1 b1 c1 a2 b2 c2
    simp only [analyzeIHCImage, runSingleAnalysis, validateAnalysisResponse,
      JsonVal.asNumber, aggregateResults]
    rw [jsRound_half_avg a1 a2, jsRound_half_avg b1 b2]
    push_cast
    norm_num
  refine ⟨hgen p1 n1 t1 p2 n2 t2, ?_, ?_⟩
  · have h := hgen 10 5 15 12 7 19
    norm_num [specAvgHalfUp] at h
    exact h
  · rw [jsRound_eq_floor]
    norm_num [Rat.floor_def']

/-- Claim C5: every aggregate that `analyzeIHCImage` returns satisfies
`total_nuclei_count = positive_nuclei_count + negative_nuclei_count`,
whatever the raw totals of the two passes were. -/
theorem aggregate_total_consistent (o1 o2 : CallOutcome) (r : AnalysisResult)
    (h : (analyzeIHCImage o1 o2).2 = .ok r) :
    r.total_nuclei_count = r.positive_nuclei_count + r.negative_nuclei_count := by
  unfold analyzeIHCImage at h
  rcases h1 : runSingleAnalysis o1 with e1 | r1 <;> rw [h1] at h
  · simp at h
  rcases h2 : runSingleAnalysis o2 with e2 | r2 <;> rw [h2] at h
  · simp at h
  simp only [Except.ok.injEq] at h
  subst h
  simp only [aggregateResults]
  push_cast
  ring

/-- Witness for claim C5: raw totals 99 and 0, both inconsistent with
their own positive and negative counts, still aggregate to a consistent
result. -/
theorem aggregate_total_consistent_witness :
    (⟨3, 4, 7⟩ : AnalysisResult).total_nuclei_count =
      (⟨3, 4, 7⟩ : AnalysisResult).positive_nuclei_count +
        (⟨3, 4, 7⟩ : AnalysisResult).negative_nuclei_count :=
  aggregate_total_consistent (.response ⟨.num 2, .num 3, .num 99⟩)
    (.response ⟨.num 4, .num 5, .num 0⟩) ⟨3, 4, 7⟩
    (by simp only [analyzeIHCImage, runSingleAnalysis,
          validateAnalysisResponse, JsonVal.asNumber, aggregateResults,
          jsRound]
        norm_num [Rat.floor_def'])

/-- Claim C2: while drawing, a click within the proximity radius of the
first point (squared distance below `clickRadius ^ 2 = 4`, i.e. Euclidean
distance below 2 in the 0-100 space) of a non-empty polygon closes it
without appending the point; any other click appends the clamped point
and keeps the polygon open. -/
theorem polygon_click_close_or_append (s : AppState) (e : MouseEvt)
    (hdraw : s.isDrawing = true) :
    ((∃ firstPoint rest, s.selectionPoints = firstPoint :: rest ∧
        distSq (getPointFromEvent e) firstPoint < clickRadius ^ 2) →
      (handleImageClick e s).isDrawing = false ∧
      (handleImageClick e s).selectionPoints = s.selectionPoints) ∧
    (¬(∃ firstPoint rest, s.selectionPoints = firstPoint :: rest ∧
        distSq (getPointFromEvent e) firstPoint < clickRadius ^ 2) →
      (handleImageClick e s).selectionPoints =
        s.selectionPoints ++ [getPointFromEvent e] ∧
      (handleImageClick e s).isDrawing = true) := by
  unfold handleImageClick
  rw [hdraw]
  constructor
  · rintro ⟨firstPoint, rest, hsel, hclose⟩
    rw [hsel]
    simp [hclose]
  · intro hnot
    rcases hsel : s.selectionPoints with _ | ⟨firstPoint, rest⟩
    · simp
    · have hfar : ¬ distSq (getPointFromEvent e) firstPoint < clickRadius ^ 2 :=
        fun hc => hnot ⟨firstPoint, rest, hsel, hc⟩
      simp [hfar]

/-- Witness for claim C2: from a one-point polygon at (50, 50), a click
mapping to (50, 50) closes the polygon without appending. -/
theorem polygon_click_close_or_append_witness :
    (handleImageClick ⟨50, 50, 0, 0, 100, 100⟩
      { initialState ⟨none, none⟩ with
          selectionPoints := [⟨50, 50⟩] }).isDrawing = false ∧
    (handleImageClick ⟨50, 50, 0, 0, 100, 100⟩
      { initialState ⟨none, none⟩ with
          selectionPoints := [⟨50, 50⟩] }).selectionPoints = [⟨50, 50⟩] :=
  (polygon_click_close_or_append
    { initialState ⟨none, none⟩ with selectionPoints := [⟨50, 50⟩] }
    ⟨50, 50, 0, 0, 100, 100⟩ rfl).1
    ⟨⟨50, 50⟩, [], rfl, by norm_num [distSq, getPointFromEvent, clickRadius]⟩

/-- Claim C7: given a loaded image, the effective input is the masked
image exactly when the selection has more than 2 points and drawing is
finished, and the original file in every other case; both
`handleQualityCheck` and `handleAnalyzeClick` consume exactly
`getFileToProcess`. -/
theorem effective_input_masked_iff_closed_selection (s : AppState)
    (img : ImageHandle) (himg : s.image = some img) :
    (s.selectionPoints.length > 2 ∧ s.isDrawing = false →
      getFileToProcess s = some (.masked img.file
        (s.selectionPoints.map fun p => ⟨p.x / 100, p.y / 100⟩))) ∧
    (¬(s.selectionPoints.length > 2 ∧ s.isDrawing = false) →
      getFileToProcess s = some (.original img.file)) := by
  unfold getFileToProcess
  rw [himg]
  constructor
  · intro hcond
    simp [hcond]
  · intro hcond
    simp [hcond]

/-- Witness for claim C7: with a loaded image and a closed triangle the
input is masked; reopening drawing makes it the original file. -/
theorem effective_input_witness :
    getFileToProcess
      { initialState ⟨none, none⟩ with
          image := some ⟨⟨"a.png", "image/png", "QUJD"⟩, "blob:a"⟩,
          selectionPoints := [⟨0, 0⟩, ⟨50, 0⟩, ⟨0, 50⟩],
          isDrawing := false } =
      some (.masked ⟨"a.png", "image/png", "QUJD"⟩
        [⟨0, 0⟩, ⟨1 / 2, 0⟩, ⟨0, 1 / 2⟩]) :=
  by
    have h := (effective_input_masked_iff_closed_selection
      { initialState ⟨none, none⟩ with
          image := some ⟨⟨"a.png", "image/png", "QUJD"⟩, "blob:a"⟩,
          selectionPoints := [⟨0, 0⟩, ⟨50, 0⟩, ⟨0, 50⟩],
          isDrawing := false }
      ⟨⟨"a.png", "image/png", "QUJD"⟩, "blob:a"⟩ rfl).1 (by simp)
    rw [h]
    norm_num

/-- Claim C9: loading a new image from any state with an image present
revokes the previous display URL and hard-resets the workflow: the new
image is installed, the selection, quality-check result, analysis result,
error, and both persisted Session Record keys are cleared, so the
analyze gate (which needs a quality-check result) is closed again. -/
theorem load_image_hard_reset (s : AppState) (img : ImageHandle)
    (file : ImageFile) (url : String) (himg : s.image = some img) :
    (handleImageUpload file url s).revokedUrls = s.revokedUrls ++ [img.url] ∧
    (handleImageUpload file url s).image = some ⟨file, url⟩ ∧
    (handleImageUpload file url s).selectionPoints = [] ∧
    (handleImageUpload file url s).isDrawing = true ∧
    (handleImageUpload file url s).previewPoint = none ∧
    (handleImageUpload file url s).qualityCheckResult = none ∧
    (handleImageUpload file url s).analysisResult = none ∧
    (handleImageUpload file url s).error = none ∧
    (handleImageUpload file url s).store.lastAnalysisResult = none ∧
    (handleImageUpload file url s).store.lastAnalysisImage = none ∧
    analyzeGateOpen (handleImageUpload file url s) = false := by
  unfold handleImageUpload resetState clearSelection analyzeGateOpen
  rw [himg]
  simp

/-- Witness for claim C9: loading a fresh file over a fully populated
session releases the old URL and clears every workflow field. -/
theorem load_image_hard_reset_witness :
    (handleImageUpload ⟨"b.png", "image/png", "REVG"⟩ "blob:b"
        populatedState).revokedUrls = populatedState.revokedUrls ++ ["blob:a"] ∧
    (handleImageUpload ⟨"b.png", "image/png", "REVG"⟩ "blob:b"
        populatedState).image =
      some ⟨⟨"b.png", "image/png", "REVG"⟩, "blob:b"⟩ ∧
    (handleImageUpload ⟨"b.png", "image/png", "REVG"⟩ "blob:b"
        populatedState).selectionPoints = [] ∧
    (handleImageUpload ⟨"b.png", "image/png", "REVG"⟩ "blob:b"
        populatedState).isDrawing = true ∧
    (handleImageUpload ⟨"b.png", "image/png", "REVG"⟩ "blob:b"
        populatedState).previewPoint = none ∧
    (handleImageUpload ⟨"b.png", "image/png", "REVG"⟩ "blob:b"
        populatedState).qualityCheckResult = none ∧
    (handleImageUpload ⟨"b.png", "image/png", "REVG"⟩ "blob:b"
        populatedState).analysisResult = none ∧
    (handleImageUpload ⟨"b.png", "image/png", "REVG"⟩ "blob:b"
        populatedState).error = none ∧
    (handleImageUpload ⟨"b.png", "image/png", "REVG"⟩ "blob:b"
        populatedState).store.lastAnalysisResult = none ∧
    (handleImageUpload ⟨"b.png", "image/png", "REVG"⟩ "blob:b"
        populatedState).store.lastAnalysisImage = none ∧
    analyzeGateOpen (handleImageUpload ⟨"b.png", "image/png", "REVG"⟩
        "blob:b" populatedState) = false :=
  load_image_hard_reset populatedState
    ⟨⟨"a.png", "image/png", "QUJD"⟩, "blob:a"⟩
    ⟨"b.png", "image/png", "REVG"⟩ "blob:b" rfl

/-- With a loaded image there is always a processable file. -/
theorem getFileToProcess_isSome (s : AppState) (img : ImageHandle)
    (himg : s.image = some img) : ∃ pf, getFileToProcess s = some pf := by
  unfold getFileToProcess
  rw [himg]
  by_cases hc : s.selectionPoints.length > 2 ∧ s.isDrawing = false
  · exact ⟨.masked img.file
      (s.selectionPoints.map fun p => ⟨p.x / 100, p.y / 100⟩), if_pos hc⟩
  · exact ⟨.original img.file, if_neg hc⟩

/-- When the two-pass analysis throws, `handleAnalyzeClick` on a state
with a loaded image ends with the error surfaced, the result state and
progress empty, loading off, and every other field (the store included)
as before. -/
theorem handleAnalyzeClick_of_error (o1 o2 : CallOutcome) (s : AppState)
    (img : ImageHandle) (e : AnalysisError) (himg : s.image = some img)
    (h : (analyzeIHCImage o1 o2).2 = .error e) :
    handleAnalyzeClick o1 o2 s =
      { s with isLoading := false, error := some analysisErrorMsg,
               analysisResult := none, analysisProgress := none } := by
  obtain ⟨pf, hpf⟩ := getFileToProcess_isSome s img himg
  unfold handleAnalyzeClick
  rw [hpf, himg]
  simp [h]

/-- When the two-pass analysis throws, the localStorage contents are
untouched, whatever the state was. -/
theorem handleAnalyzeClick_store_of_error (o1 o2 : CallOutcome)
    (s : AppState) (e : AnalysisError)
    (h : (analyzeIHCImage o1 o2).2 = .error e) :
    (handleAnalyzeClick o1 o2 s).store = s.store := by
  rcases himg : s.image with _ | img
  · have hf : getFileToProcess s = none := by
      unfold getFileToProcess
      rw [himg]
    unfold handleAnalyzeClick
    rw [hf]
  · rw [handleAnalyzeClick_of_error o1 o2 s img e himg h]

/-- If either model call rejects, the two-pass analysis throws. -/
theorem analyzeIHCImage_error_of_call_failure (o1 o2 : CallOutcome)
    (hfail : o1 = .failure ∨ o2 = .failure) :
    ∃ e, (analyzeIHCImage o1 o2).2 = .error e := by
  unfold analyzeIHCImage
  rcases hfail with rfl | rfl
  · exact ⟨.modelCallFailed, rfl⟩
  · rcases h1 : runSingleAnalysis o1 with e1 | r1
    · exact ⟨e1, by simp [h1]⟩
    · exact ⟨.modelCallFailed, by simp [h1, runSingleAnalysis]⟩

/-- Counterexample to claim C3 as stated: from a state holding a prior
analysis result, a run whose first pass succeeds and whose second call
fails leaves the Analysis Result state empty, not unchanged at its prior
value. -/
theorem failed_analysis_changes_prior_result :
    populatedState.analysisResult = some ⟨10, 5, 15⟩ ∧
    (handleAnalyzeClick (.response ⟨.num 7, .num 3, .num 10⟩) .failure
        populatedState).analysisResult = none := by
  constructor
  · rfl
  · have he : (analyzeIHCImage (.response ⟨.num 7, .num 3, .num 10⟩)
        .failure).2 = .error .modelCallFailed := rfl
    rw [handleAnalyzeClick_of_error _ _ populatedState
      ⟨⟨"a.png", "image/png", "QUJD"⟩, "blob:a"⟩ .modelCallFailed rfl he]

/-- Claim C3 (amended): if either of the two model calls fails, the whole
operation aborts: no averaged result is produced (a successful first pass
is discarded), no Session Record is persisted (the store is unchanged),
and the error is surfaced; the Analysis Result state, however, is cleared
at the start of the run, so after the failure it is empty rather than
unchanged at its prior value. -/
theorem analysis_failure_aborts (o1 o2 : CallOutcome) (s : AppState)
    (img : ImageHandle) (himg : s.image = some img)
    (hfail : o1 = .failure ∨ o2 = .failure) :
    (∀ r, (analyzeIHCImage o1 o2).2 ≠ .ok r) ∧
    (handleAnalyzeClick o1 o2 s).store = s.store ∧
    (handleAnalyzeClick o1 o2 s).error = some analysisErrorMsg ∧
    (handleAnalyzeClick o1 o2 s).analysisResult = none := by
  obtain ⟨e, he⟩ := analyzeIHCImage_error_of_call_failure o1 o2 hfail
  have hstate := handleAnalyzeClick_of_error o1 o2 s img e himg he
  refine ⟨fun r hr => ?_, ?_, ?_, ?_⟩
  · rw [he] at hr
    exact Except.noConfusion hr
  · rw [hstate]
  · rw [hstate]
  · rw [hstate]

/-- Witness for claim C3 (amended): a concrete failing second call over a
populated session aborts without touching the stored Session Record. -/
theorem analysis_failure_aborts_witness :
    (∀ r, (analyzeIHCImage (.response ⟨.num 7, .num 3, .num 10⟩)
        .failure).2 ≠ .ok r) ∧
    (handleAnalyzeClick (.response ⟨.num 7, .num 3, .num 10⟩) .failure
        populatedState).store = populatedState.store ∧
    (handleAnalyzeClick (.response ⟨.num 7, .num 3, .num 10⟩) .failure
        populatedState).error = some analysisErrorMsg ∧
    (handleAnalyzeClick (.response ⟨.num 7, .num 3, .num 10⟩) .failure
        populatedState).analysisResult = none :=
  analysis_failure_aborts (.response ⟨.num 7, .num 3, .num 10⟩) .failure
    populatedState ⟨⟨"a.png", "image/png", "QUJD"⟩, "blob:a"⟩ rfl
    (Or.inr rfl)

/-- Claim C4: a raw response with a count field that is missing or
non-numeric is rejected as invalid data, and whichever pass it occurred
in, the whole operation fails: no aggregate is produced (the malformed
value is never averaged with a valid one) and the Session Record keys
are not written. -/
theorem malformed_response_rejected (raw : RawAnalysisResponse)
    (hmal : raw.positive_nuclei_count.asNumber = none ∨
      raw.negative_nuclei_count.asNumber = none ∨
      raw.total_nuclei_count.asNumber = none) :
    runSingleAnalysis (.response raw) = .error .invalidDataFormat ∧
    ∀ (o1 o2 : CallOutcome) (s : AppState),
      o1 = .response raw ∨ o2 = .response raw →
      (∀ r, (analyzeIHCImage o1 o2).2 ≠ .ok r) ∧
      (handleAnalyzeClick o1 o2 s).store = s.store := by
  have hval : runSingleAnalysis (.response raw) = .error .invalidDataFormat := by
    unfold runSingleAnalysis validateAnalysisResponse
    rcases hp : raw.positive_nuclei_count.asNumber with _ | p <;>
      rcases hn : raw.negative_nuclei_count.asNumber with _ | n <;>
      rcases ht : raw.total_nuclei_count.asNumber with _ | t <;>
      simp_all
  refine ⟨hval, ?_⟩
  intro o1 o2 s hor
  have herr : ∃ e, (analyzeIHCImage o1 o2).2 = .error e := by
    unfold analyzeIHCImage
    rcases hor with rfl | rfl
    · rw [hval]
      exact ⟨.invalidDataFormat, rfl⟩
    · rcases h1 : runSingleAnalysis o1 with e1 | r1
      · exact ⟨e1, by simp [h1]⟩
      · exact ⟨.invalidDataFormat, by simp [h1, hval]⟩
  obtain ⟨e, he⟩ := herr
  refine ⟨fun r hr => ?_, handleAnalyzeClick_store_of_error o1 o2 s e he⟩
  rw [he] at hr
  exact Except.noConfusion hr

/-- Witness for claim C4: the spec scenario of a pass whose positive
count arrives as a string is rejected and persists nothing. -/
theorem malformed_response_rejected_witness :
    runSingleAnalysis (.response ⟨.str "12", .num 5, .num 17⟩) =
      .error .invalidDataFormat ∧
    (∀ r, (analyzeIHCImage (.response ⟨.str "12", .num 5, .num 17⟩)
        (.response ⟨.num 12, .num 7, .num 19⟩)).2 ≠ .ok r) ∧
    (handleAnalyzeClick (.response ⟨.str "12", .num 5, .num 17⟩)
        (.response ⟨.num 12, .num 7, .num 19⟩)
        (initialState ⟨none, none⟩)).store =
      (initialState ⟨none, none⟩).store := by
  have h := malformed_response_rejected ⟨.str "12", .num 5, .num 17⟩
    (Or.inl rfl)
  exact ⟨h.1, h.2 _ _ _ (Or.inl rfl)⟩

/-- Claim C6: in every execution of the two-pass analysis, the second
model call is issued only after the first call has fully resolved (the
second issue event always sits after the first resolve event in the
trace), and in every execution that returns a result the callbacks fire
exactly as 0 before the first call, 50 after the first call returns, and
100 after the second call returns. -/
theorem analysis_sequential_progress (o1 o2 : CallOutcome) :
    (Event.callIssued 2 ∈ (analyzeIHCImage o1 o2).1 →
      ∃ pre suf, (analyzeIHCImage o1 o2).1 =
        pre ++ Event.callResolved 1 :: suf ∧ Event.callIssued 2 ∈ suf) ∧
    (∀ r, (analyzeIHCImage o1 o2).2 = .ok r →
      (analyzeIHCImage o1 o2).1 =
        [Event.progress 0, Event.callIssued 1, Event.callResolved 1,
         Event.progress 50, Event.callIssued 2, Event.callResolved 2,
         Event.progress 100]) := by
  rcases o1 with _ | raw1
  · constructor
    · intro hmem
      simp [analyzeIHCImage, runSingleAnalysis, callEvents] at hmem
    · intro r hr
      simp [analyzeIHCImage, runSingleAnalysis] at hr
  · rcases hv1 : validateAnalysisResponse raw1 with e1 | r1
    · constructor
      · intro hmem
        simp [analyzeIHCImage, runSingleAnalysis, hv1, callEvents] at hmem
      · intro r hr
        simp [analyzeIHCImage, runSingleAnalysis, hv1] at hr
    · rcases o2 with _ | raw2
      · constructor
        · intro hmem
          refine ⟨[Event.progress 0, Event.callIssued 1],
            [Event.progress 50, Event.callIssued 2, Event.callFailed 2],
            ?_, by simp⟩
          simp [analyzeIHCImage, runSingleAnalysis, hv1, callEvents]
        · intro r hr
          simp [analyzeIHCImage, runSingleAnalysis, hv1] at hr
      · rcases hv2 : validateAnalysisResponse raw2 with e2 | r2
        · constructor
          · intro hmem
            refine ⟨[Event.progress 0, Event.callIssued 1],
              [Event.progress 50, Event.callIssued 2, Event.callResolved 2],
              ?_, by simp⟩
            simp [analyzeIHCImage, runSingleAnalysis, hv1, hv2, callEvents]
          · intro r hr
            simp [analyzeIHCImage, runSingleAnalysis, hv1, hv2] at hr
        · constructor
          · intro hmem
            refine ⟨[Event.progress 0, Event.callIssued 1],
              [Event.progress 50, Event.callIssued 2, Event.callResolved 2,
               Event.progress 100], ?_, by simp⟩
            simp [analyzeIHCImage, runSingleAnalysis, hv1, hv2, callEvents]
          · intro r hr
            simp [analyzeIHCImage, runSingleAnalysis, hv1, hv2, callEvents]

/-- Witness for claim C6: a run whose two calls both return counts 1 and
2 produces exactly the 0 / issue / resolve / 50 / issue / resolve / 100
trace. -/
theorem analysis_sequential_progress_witness :
    (analyzeIHCImage (.response ⟨.num 1, .num 2, .num 3⟩)
        (.response ⟨.num 1, .num 2, .num 3⟩)).1 =
      [Event.progress 0, Event.callIssued 1, Event.callResolved 1,
       Event.progress 50, Event.callIssued 2, Event.callResolved 2,
       Event.progress 100] :=
  (analysis_sequential_progress (.response ⟨.num 1, .num 2, .num 3⟩)
      (.response ⟨.num 1, .num 2, .num 3⟩)).2 ⟨1, 2, 3⟩
    (by simp only [analyzeIHCImage, runSingleAnalysis,
          validateAnalysisResponse, JsonVal.asNumber, aggregateResults,
          jsRound]
        norm_num [Rat.floor_def'])

/-! ### Effect of each transition on the selection polygon -/

/-- Both reset flavours empty the selection and re-enable drawing. -/
theorem resetState_selection (b : Bool) (s : AppState) :
    (resetState b s).selectionPoints = [] ∧
    (resetState b s).isDrawing = true := by
  unfold resetState clearSelection
  cases b
  · simp
  · cases himg : s.image <;> simp

/-- Restoring a session does not touch the selection. -/
theorem restoreSession_selection (url : String) (s : AppState) :
    (restoreSession url s).selectionPoints = s.selectionPoints ∧
    (restoreSession url s).isDrawing = s.isDrawing := by
  unfold restoreSession
  cases h1 : s.store.lastAnalysisResult <;>
    cases h2 : s.store.lastAnalysisImage <;> simp

/-- Loading an image empties the selection and re-enables drawing. -/
theorem handleImageUpload_selection (file : ImageFile) (url : String)
    (s : AppState) :
    (handleImageUpload file url s).selectionPoints = [] ∧
    (handleImageUpload file url s).isDrawing = true := by
  unfold handleImageUpload
  simpa using resetState_selection true s

/-- Mouse movement does not touch the selection. -/
theorem handleMouseMove_selection (e : MouseEvt) (s : AppState) :
    (handleMouseMove e s).selectionPoints = s.selectionPoints ∧
    (handleMouseMove e s).isDrawing = s.isDrawing := by
  unfold handleMouseMove
  by_cases hc : s.isDrawing ∧ s.selectionPoints ≠ [] <;> simp [hc]

/-- A quality check does not touch the selection. -/
theorem handleQualityCheck_selection (outcome : Except Unit QualityCheckResult)
    (s : AppState) :
    (handleQualityCheck outcome s).selectionPoints = s.selectionPoints ∧
    (handleQualityCheck outcome s).isDrawing = s.isDrawing := by
  unfold handleQualityCheck
  cases hf : getFileToProcess s
  · simp
  · cases outcome <;> simp

/-- An analysis run does not touch the selection. -/
theorem handleAnalyzeClick_selection (o1 o2 : CallOutcome) (s : AppState) :
    (handleAnalyzeClick o1 o2 s).selectionPoints = s.selectionPoints ∧
    (handleAnalyzeClick o1 o2 s).isDrawing = s.isDrawing := by
  unfold handleAnalyzeClick
  cases hf : getFileToProcess s
  · cases himg : s.image <;> simp
  · cases himg : s.image
    · simp
    · rcases hres : (analyzeIHCImage o1 o2).2 with e | r <;> simp [hres]

/-- An edit either leaves the state alone (guard) or empties the
selection and re-enables drawing. -/
theorem handleEditClick_selection (prompt : String)
    (outcome : Except Unit ImageHandle) (s : AppState) :
    handleEditClick prompt outcome s = s ∨
    ((handleEditClick prompt outcome s).selectionPoints = [] ∧
     (handleEditClick prompt outcome s).isDrawing = true) := by
  unfold handleEditClick
  by_cases hg : prompt = "" ∨ s.image = none
  · left
    simp [hg]
  · right
    rw [if_neg hg]
    have hr := resetState_selection false s
    rcases hi : ({ resetState false s with
        isLoading := true, error := none } : AppState).image with _ | img
    · cases outcome <;> simp_all
    · cases outcome <;> simp_all

/-- Every point `getPointFromEvent` produces is clamped into the closed
0-100 square. -/
theorem getPointFromEvent_mem_box (e : MouseEvt) :
    0 ≤ (getPointFromEvent e).x ∧ (getPointFromEvent e).x ≤ 100 ∧
    0 ≤ (getPointFromEvent e).y ∧ (getPointFromEvent e).y ≤ 100 := by
  unfold getPointFromEvent
  refine ⟨le_max_left _ _, ?_, le_max_left _ _, ?_⟩ <;>
    exact max_le (by norm_num) (min_le_left _ _)

/-- The three possible effects of a click: ignored (not drawing), the
clamped point appended (drawing stays on), or the polygon closed with
the non-empty point list unchanged. -/
theorem handleImageClick_cases (e : MouseEvt) (s : AppState) :
    handleImageClick e s = s ∨
    ((handleImageClick e s).selectionPoints =
        s.selectionPoints ++ [getPointFromEvent e] ∧
     (handleImageClick e s).isDrawing = s.isDrawing) ∨
    ((handleImageClick e s).selectionPoints = s.selectionPoints ∧
     (handleImageClick e s).isDrawing = false ∧
     s.selectionPoints ≠ []) := by
  unfold handleImageClick
  by_cases hd : s.isDrawing = false
  · left
    simp [hd]
  · rw [if_neg hd]
    rcases hsel : s.selectionPoints with _ | ⟨firstPoint, rest⟩
    · right; left
      simp [hsel, eq_true_of_ne_false hd]
    · by_cases hclose : distSq (getPointFromEvent e) firstPoint < clickRadius ^ 2
      · right; right
        simp [hsel, hclose]
      · right; left
        simp [hsel, hclose, eq_true_of_ne_false hd]

/-! ### Concrete reachable states -/

/-- A click in the middle of the drawing surface: pointer at client
(50, 50) over a rectangle of size 100 at the origin, mapping to the
normalized point (50, 50). -/
def clickCenter : MouseEvt := ⟨50, 50, 0, 0, 100, 100⟩

/-- The state after one center click on a fresh mount. -/
def oneClickState : AppState :=
  handleImageClick clickCenter (initialState ⟨none, none⟩)

/-- The state after clicking the center twice: the second click lands on
the first point and closes the polygon. -/
def twoClickState : AppState :=
  handleImageClick clickCenter oneClickState

/-- The center click maps to the normalized point (50, 50). -/
theorem clickCenter_point : getPointFromEvent clickCenter = ⟨50, 50⟩ := by
  simp [getPointFromEvent, clickCenter]
  norm_num

/-- One center click appends the point (50, 50). -/
theorem oneClickState_eq :
    oneClickState =
      { initialState ⟨none, none⟩ with selectionPoints := [⟨50, 50⟩] } := by
  unfold oneClickState handleImageClick
  rw [clickCenter_point]
  simp [initialState]

/-- The second center click closes the one-point polygon. -/
theorem twoClickState_eq :
    twoClickState =
      { initialState ⟨none, none⟩ with
          selectionPoints := [⟨50, 50⟩], isDrawing := false } := by
  unfold twoClickState
  rw [oneClickState_eq]
  unfold handleImageClick
  rw [clickCenter_point]
  norm_num [initialState, distSq, clickRadius]

/-- A fresh mount over an empty store is reachable. -/
theorem initialState_reachable : Reachable (initialState ⟨none, none⟩) :=
  Reachable.mount ⟨none, none⟩ ""

/-- Counterexample to claim C8 as stated: the polygon closure fires as
soon as one point exists, so the reachable state `twoClickState` is a
closed polygon with exactly 1 point, not at least 3. -/
theorem closed_polygon_with_one_point :
    Reachable twoClickState ∧ twoClickState.isDrawing = false ∧
    twoClickState.selectionPoints.length = 1 := by
  refine ⟨Reachable.click _ clickCenter
    (Reachable.click _ clickCenter initialState_reachable), ?_, ?_⟩ <;>
    simp [twoClickState_eq]

/-- Claim C8 (amended): every reachable polygon is either open or closed,
and a closed polygon always has at least 1 point (closure needs only one
existing point, so closed polygons with 1 or 2 points are reachable and
the 3-point lower bound of the claim does not hold). -/
theorem closed_polygon_nonempty (s : AppState) (h : Reachable s) :
    s.isDrawing = false → 1 ≤ s.selectionPoints.length := by
  induction h with
  | mount store url =>
    intro hc
    have hr := restoreSession_selection url (initialState store)
    rw [hr.2] at hc
    simp [initialState] at hc
  | upload s file url hs ih =>
    intro hc
    rw [(handleImageUpload_selection file url s).2] at hc
    exact absurd hc (by simp)
  | click s e hs ih =>
    intro hc
    rcases handleImageClick_cases e s with hcase | hcase | hcase
    · rw [hcase] at hc ⊢
      exact ih hc
    · rw [hcase.1]
      simp
    · rw [hcase.1]
      rcases hne : s.selectionPoints with _ | _
      · exact absurd hne hcase.2.2
      · simp
  | move s e hs ih =>
    intro hc
    rw [(handleMouseMove_selection e s).2] at hc
    rw [(handleMouseMove_selection e s).1]
    exact ih hc
  | clear s hs ih =>
    intro hc
    simp [clearSelection] at hc
  | reset s hs ih =>
    intro hc
    rw [(resetState_selection true s).2] at hc
    exact absurd hc (by simp)
  | quality s outcome hs ih =>
    intro hc
    rw [(handleQualityCheck_selection outcome s).2] at hc
    rw [(handleQualityCheck_selection outcome s).1]
    exact ih hc
  | analyze s o1 o2 hs ih =>
    intro hc
    rw [(handleAnalyzeClick_selection o1 o2 s).2] at hc
    rw [(handleAnalyzeClick_selection o1 o2 s).1]
    exact ih hc
  | edit s prompt outcome hs ih =>
    intro hc
    rcases handleEditClick_selection prompt outcome s with hcase | hcase
    · rw [hcase] at hc ⊢
      exact ih hc
    · rw [hcase.2] at hc
      exact absurd hc (by simp)

/-- Witness for claim C8 (amended): the reachable closed one-point
polygon indeed has at least 1 point. -/
theorem closed_polygon_nonempty_witness :
    1 ≤ twoClickState.selectionPoints.length :=
  closed_polygon_nonempty twoClickState
    (Reachable.click _ clickCenter
      (Reachable.click _ clickCenter initialState_reachable))
    (by rw [twoClickState_eq])

/-- Claim C10: in every reachable state, every stored selection point has
both coordinates inside the closed interval [0, 100], whatever raw
pointer positions produced it. -/
theorem selection_points_in_box (s : AppState) (h : Reachable s) :
    ∀ p ∈ s.selectionPoints,
      0 ≤ p.x ∧ p.x ≤ 100 ∧ 0 ≤ p.y ∧ p.y ≤ 100 := by
  induction h with
  | mount store url =>
    intro p hp
    rw [(restoreSession_selection url (initialState store)).1] at hp
    simp [initialState] at hp
  | upload s file url hs ih =>
    intro p hp
    rw [(handleImageUpload_selection file url s).1] at hp
    simp at hp
  | click s e hs ih =>
    intro p hp
    rcases handleImageClick_cases e s with hcase | hcase | hcase
    · rw [hcase] at hp
      exact ih p hp
    · rw [hcase.1] at hp
      rcases List.mem_append.mp hp with hold | hnew
      · exact ih p hold
      · rw [List.mem_singleton.mp hnew]
        exact getPointFromEvent_mem_box e
    · rw [hcase.1] at hp
      exact ih p hp
  | move s e hs ih =>
    intro p hp
    rw [(handleMouseMove_selection e s).1] at hp
    exact ih p hp
  | clear s hs ih =>
    intro p hp
    simp [clearSelection] at hp
  | reset s hs ih =>
    intro p hp
    rw [(resetState_selection true s).1] at hp
    simp at hp
  | quality s outcome hs ih =>
    intro p hp
    rw [(handleQualityCheck_selection outcome s).1] at hp
    exact ih p hp
  | analyze s o1 o2 hs ih =>
    intro p hp
    rw [(handleAnalyzeClick_selection o1 o2 s).1] at hp
    exact ih p hp
  | edit s prompt outcome hs ih =>
    intro p hp
    rcases handleEditClick_selection prompt outcome s with hcase | hcase
    · rw [hcase] at hp
      exact ih p hp
    · rw [hcase.1] at hp
      simp at hp

/-- Witness for claim C10: the point stored by the reachable one-click
state lies inside the box. -/
theorem selection_points_in_box_witness :
    0 ≤ (⟨50, 50⟩ : Point).x ∧ (⟨50, 50⟩ : Point).x ≤ 100 ∧
    0 ≤ (⟨50, 50⟩ : Point).y ∧ (⟨50, 50⟩ : Point).y ≤ 100 :=
  selection_points_in_box oneClickState
    (Reachable.click _ clickCenter initialState_reachable)
    ⟨50, 50⟩ (by rw [oneClickState_eq]; simp)

end IHC
